import Mathlib

/-!
Shallow embedding of the two scripts of the repository
(`missing_file_uploader.py` and `bucket_folder_deleter.py`) and proofs of
the specified properties.

The storage client and the file system are modelled as explicit
environments of `Except`-valued functions; a raised exception on the
Python side is an `Except.error` value here.  Observable behavior
(log lines, upload calls, remove calls) is modelled as lists of events.
-/

namespace FileUpload

/-- The `metadata` dictionary of a bucket listing item.  `size` is the
value of the `"size"` key when present; `extraKeys` counts the other
keys, so that the truthiness test `if item.get("metadata")` (a dict is
truthy iff nonempty) can be expressed. -/
structure Metadata where
  size : Option Int
  extraKeys : Nat
  deriving DecidableEq

/-- Python truthiness of the metadata dict: nonempty. -/
def Metadata.truthy (m : Metadata) : Bool :=
  m.size.isSome || m.extraKeys != 0

/-- One item of a bucket listing response: a dict with optional `"name"`
and `"metadata"` keys (`none` models an absent key). -/
structure BucketItem where
  name : Option String
  metadata : Option Metadata
  deriving DecidableEq

/-- Model of `item.get("name", "")`. -/
def BucketItem.getName (item : BucketItem) : String :=
  item.name.getD ""

/-- The condition `item.get("metadata") and item.get("metadata").get("size", 0) == 0`
from `fetch_file_list_from_bucket`. -/
def BucketItem.isZeroByte (item : BucketItem) : Bool :=
  match item.metadata with
  | none => false
  | some m => m.truthy && (m.size.getD 0 == 0)

/-- Body of the `for item in response` loop of `fetch_file_list_from_bucket`:
add the name to the zero-byte set when the size check fires, and always
add it to the available set. -/
def processItem (acc : Finset String × Finset String) (item : BucketItem) :
    Finset String × Finset String :=
  let zero := if item.isZeroByte then insert item.getName acc.2 else acc.2
  (insert item.getName acc.1, zero)

/-- The paging loop of `fetch_file_list_from_bucket`.  `listFn offset` models
`supabase.storage.from_(bucket).list(bucket_dir, {"limit": limit, "offset": offset})`;
an `Except.error` models a raised exception, which the surrounding
`try/except` turns into the pair of empty sets.  `fuel` bounds the number
of iterations; `none` means the loop did not finish within `fuel` pages. -/
def fetch_go (listFn : Nat → Except String (List BucketItem)) (limit : Nat) :
    Nat → Nat → Finset String × Finset String →
    Option (Finset String × Finset String)
  | 0, _, _ => none
  | fuel + 1, offset, acc =>
    match listFn offset with
    | Except.error _ => some (∅, ∅)
    | Except.ok response =>
      if response.isEmpty then some acc
      else
        let acc2 := response.foldl processItem acc
        if response.length < limit then some acc2
        else fetch_go listFn limit fuel (offset + limit) acc2

/-- Definition of `fetch_file_list_from_bucket`: run the paging loop from offset 0 with
empty accumulators. -/
def fetch_file_list_from_bucket (listFn : Nat → Except String (List BucketItem))
    (limit fuel : Nat) : Option (Finset String × Finset String) :=
  fetch_go listFn limit fuel 0 (∅, ∅)

/-- Definition of `is_file_valid`: the file name is in the fetched list and not in the
zero-byte list. -/
def is_file_valid (file_name : String) (file_list zero_byte_list : Finset String) :
    Bool :=
  decide (file_name ∈ file_list) && !decide (file_name ∈ zero_byte_list)

/-- One CSV row as produced by `csv.DictReader`: an association list from
column name to value. -/
def Row : Type := List (String × String)

/-- Model of `row.get(key)`: the value of the column when present. -/
def Row.get (row : Row) (key : String) : Option String :=
  List.lookup key row

/-- Row-level characterization of the loop body of
`get_missing_files_from_csv`: `some id` when the value under the `id` key of the row is
present and non-empty (Python truthy) and the derived name
`{id}.{extension}` is not valid, `none` otherwise. -/
def missing_row_id (file_list zero_byte_list : Finset String)
    (file_extension : String) (row : Row) : Option String :=
  match Row.get row "id" with
  | none => none
  | some id_value =>
    if id_value = "" then none
    else if is_file_valid (id_value ++ "." ++ file_extension) file_list zero_byte_list
    then none
    else some id_value

/-- The row loop of `get_missing_files_from_csv`.  The row stream is a list
of `Except`: an `Except.error` models an exception raised while opening or
iterating the CSV, which stops the loop; the `except` clause logs it and
control falls through to `return missing_ids`, so the accumulated list is
returned. -/
def get_missing_go (file_list zero_byte_list : Finset String)
    (file_extension : String) :
    List (Except String Row) → List String → List String
  | [], acc => acc
  | Except.error _ :: _, acc => acc
  | Except.ok row :: rest, acc =>
    match Row.get row "id" with
    | none => get_missing_go file_list zero_byte_list file_extension rest acc
    | some id_value =>
      if id_value = "" then
        get_missing_go file_list zero_byte_list file_extension rest acc
      else
        let file_name := id_value ++ "." ++ file_extension
        if is_file_valid file_name file_list zero_byte_list then
          get_missing_go file_list zero_byte_list file_extension rest acc
        else
          get_missing_go file_list zero_byte_list file_extension rest (acc ++ [id_value])

/-- Definition of `get_missing_files_from_csv`: run the row loop with an initially empty
`missing_ids` accumulator. -/
def get_missing_files_from_csv (csv_rows : List (Except String Row))
    (file_list zero_byte_list : Finset String) (file_extension : String) :
    List String :=
  get_missing_go file_list zero_byte_list file_extension csv_rows []

/-- The set of names contributed by one listing page. -/
def namesOf (response : List BucketItem) : Finset String :=
  (response.map BucketItem.getName).toFinset

/-- The set of zero-byte names contributed by one listing page. -/
def zeroNamesOf (response : List BucketItem) : Finset String :=
  ((response.filter BucketItem.isZeroByte).map BucketItem.getName).toFinset

/-- Union of `f 0 ∪ ... ∪ f (n - 1)`. -/
def unionOver (f : Nat → Finset String) : Nat → Finset String
  | 0 => ∅
  | n + 1 => unionOver f n ∪ f n

/-- A concrete listing item with a nonzero size, used in witnesses. -/
def sampleItemA : BucketItem :=
  { name := some "a.txt", metadata := some { size := some 5, extraKeys := 0 } }

/-- A concrete zero-byte listing item, used in witnesses. -/
def sampleItemB : BucketItem :=
  { name := some "b.txt", metadata := some { size := some 0, extraKeys := 0 } }

/-- Model of `os.path.join(directory_path, file_name)` for the simple relative
names this script builds. -/
def path_join (directory_path file_name : String) : String :=
  directory_path ++ "/" ++ file_name

/-- The response of `supabase.storage.from_(bucket).upload(...)`:
`status_code`, the result of `response.json()` (`none` models a
`JSONDecodeError`, `some` the decoded object as an association list),
and `response.text`. -/
structure UploadResponse where
  status_code : Nat
  jsonBody : Option (List (String × String))
  text : String
  deriving DecidableEq

/-- The environment `upload_missing_files` runs against: `path_exists` is
`os.path.exists`, `read_file` is `open(...).read()` (an `Except.error`
models a raised exception), and `upload` is the storage upload call for a
bucket, target path and file contents (an `Except.error` models a raised
exception). -/
structure UploadEnv where
  path_exists : String → Bool
  read_file : String → Except String String
  upload : String → String → String → Except String UploadResponse

/-- Observable behavior of `upload_missing_files`: the upload calls it
issues and the log lines it prints. -/
inductive UploadEvent where
  | uploadCall (bucket path data : String)
  | uploaded (file_name : String)
  | uploadFailed (file_name message : String)
  | uploadFailedRaw (file_name text : String)
  | uploadError (file_name err : String)
  | localMissing (file_name directory_path : String)
  deriving DecidableEq

/-- The body of the `for file_id in missing_files` loop of
`upload_missing_files`: check local existence, read and upload the file,
and branch on the response exactly as the source does; every exception in
the `try` block becomes a logged `uploadError` event. -/
def upload_one_file (env : UploadEnv)
    (directory_path bucket bucket_dir file_extension file_id : String) :
    List UploadEvent :=
  let file_name := file_id ++ "." ++ file_extension
  let local_file_path := path_join directory_path file_name
  if env.path_exists local_file_path then
    match env.read_file local_file_path with
    | Except.error e => [UploadEvent.uploadError file_name e]
    | Except.ok data =>
      UploadEvent.uploadCall bucket (bucket_dir ++ "/" ++ file_name) data ::
        match env.upload bucket (bucket_dir ++ "/" ++ file_name) data with
        | Except.error e => [UploadEvent.uploadError file_name e]
        | Except.ok response =>
          if response.status_code == 200 then [UploadEvent.uploaded file_name]
          else
            match response.jsonBody with
            | some error_content =>
              [UploadEvent.uploadFailed file_name
                ((List.lookup "error" error_content).getD "Unknown error")]
            | none => [UploadEvent.uploadFailedRaw file_name response.text]
  else [UploadEvent.localMissing file_name directory_path]

/-- Definition of `upload_missing_files`: iterate the loop body over the missing
identifiers, collecting the events in order. -/
def upload_missing_files (env : UploadEnv)
    (directory_path bucket bucket_dir file_extension : String) :
    List String → List UploadEvent
  | [] => []
  | file_id :: rest =>
    upload_one_file env directory_path bucket bucket_dir file_extension file_id ++
      upload_missing_files env directory_path bucket bucket_dir file_extension rest

/-- A concrete environment, used in witnesses: only `dir/5.txt` exists
locally, reads succeed, and every upload raises. -/
def envOnlyFive : UploadEnv where
  path_exists := fun p => p == "dir/5.txt"
  read_file := fun _ => Except.ok "data"
  upload := fun _ _ _ => Except.error "boom"

/-- A concrete environment, used in witnesses: every local file exists,
reads succeed, and every upload returns the given response. -/
def envUpload (r : UploadResponse) : UploadEnv where
  path_exists := fun _ => true
  read_file := fun _ => Except.ok "data"
  upload := fun _ _ _ => Except.ok r

/-- A concrete 404 response whose body is not JSON, used in witnesses. -/
def resp404 : UploadResponse :=
  { status_code := 404, jsonBody := none, text := "oops" }

/-- A concrete 201 response with a JSON error body, used in witnesses. -/
def resp201 : UploadResponse :=
  { status_code := 201, jsonBody := some [("error", "Duplicate")], text := "" }

/-- One entry of the folder listing used by `delete_folder`: a dict whose
`"name"` key may be absent (`none`). -/
structure DelItem where
  name : Option String
  deriving DecidableEq

/-- The value returned by the listing call in `delete_folder`: either a
Python list of entries, or any non-list value (for example an error
dict), which the script treats as "nothing to delete". -/
inductive ListResponse where
  | list (items : List DelItem)
  | other
  deriving DecidableEq

/-- The dict returned by the bulk remove call; `httpStatusCode` is `none`
when the key is absent (its access then raises a `KeyError`). -/
structure RemoveResponse where
  httpStatusCode : Option Nat
  deriving DecidableEq

/-- The storage environment `delete_folder` runs against: `list` is the
folder listing call (bucket, folder, limit) and `remove` the bulk remove
call (bucket, paths); an `Except.error` models a raised exception. -/
structure DeleteEnv where
  list : String → String → Nat → Except String ListResponse
  remove : String → List String → Except String RemoveResponse

/-- Observable behavior of `delete_folder`: the storage calls it issues
and the messages it prints. -/
inductive DeleteEvent where
  | listCall (bucket folder : String) (limit : Nat)
  | printedResponse (r : ListResponse)
  | folderEmpty (folder : String)
  | removeCall (paths : List String)
  | deleted (paths : List String)
  | deleteFailed (paths : List String)
  | allDeleted (folder : String)
  | errorOccurred (folder err : String)
  deriving DecidableEq

/-- Recognizes listing-call events. -/
def isListCall : DeleteEvent → Bool
  | DeleteEvent.listCall _ _ _ => true
  | _ => false

/-- The path-building list comprehension of `delete_folder`, which derives
`folder_name/name` from each entry; an entry without a `"name"` key
raises. -/
def build_file_paths (folder_name : String) : List DelItem → Except String (List String)
  | [] => Except.ok []
  | item :: rest =>
    match item.name with
    | none => Except.error "KeyError: name"
    | some n =>
      match build_file_paths folder_name rest with
      | Except.error e => Except.error e
      | Except.ok ps => Except.ok ((folder_name ++ "/" ++ n) :: ps)

/-- Definition of `delete_folder`: list the folder once with limit 10000, print the
response, treat an empty or non-list response as nothing to delete,
otherwise issue one bulk remove call for all listed paths and report the
outcome; every exception in the `try` block becomes a logged
`errorOccurred` event. -/
def delete_folder (env : DeleteEnv) (bucket_name folder_name : String) :
    List DeleteEvent :=
  DeleteEvent.listCall bucket_name folder_name 10000 ::
    match env.list bucket_name folder_name 10000 with
    | Except.error e => [DeleteEvent.errorOccurred folder_name e]
    | Except.ok response =>
      DeleteEvent.printedResponse response ::
        match response with
        | ListResponse.other => [DeleteEvent.folderEmpty folder_name]
        | ListResponse.list items =>
          if items.isEmpty then [DeleteEvent.folderEmpty folder_name]
          else
            match build_file_paths folder_name items with
            | Except.error e => [DeleteEvent.errorOccurred folder_name e]
            | Except.ok file_path_list =>
              DeleteEvent.removeCall file_path_list ::
                match env.remove bucket_name file_path_list with
                | Except.error e => [DeleteEvent.errorOccurred folder_name e]
                | Except.ok delete_response =>
                  match delete_response.httpStatusCode with
                  | none =>
                    [DeleteEvent.errorOccurred folder_name "KeyError: httpStatusCode"]
                  | some code =>
                    if code == 200 then
                      [DeleteEvent.deleted file_path_list,
                       DeleteEvent.allDeleted folder_name]
                    else
                      [DeleteEvent.deleteFailed file_path_list,
                       DeleteEvent.allDeleted folder_name]

/-- A concrete listing entry, used in witnesses. -/
def itemC : DelItem := { name := some "c.txt" }

/-- A concrete environment whose listing is an empty list, used in
witnesses. -/
def envEmptyList : DeleteEnv where
  list := fun _ _ _ => Except.ok (ListResponse.list [])
  remove := fun _ _ => Except.ok { httpStatusCode := some 200 }

/-- A concrete environment whose listing holds one entry, used in
witnesses. -/
def envOneFile : DeleteEnv where
  list := fun _ _ _ => Except.ok (ListResponse.list [itemC])
  remove := fun _ _ => Except.ok { httpStatusCode := some 200 }

end FileUpload

namespace FileUpload

/-- C1: for every inventory (file-name set plus zero-byte set) and every
file name, `is_file_valid` returns `true` iff the name is a member of the
file-name set and not a member of the zero-byte set. -/
theorem is_file_valid_iff (file_name : String)
    (file_list zero_byte_list : Finset String) :
    is_file_valid file_name file_list zero_byte_list = true ↔
      file_name ∈ file_list ∧ file_name ∉ zero_byte_list := by
  simp [is_file_valid]

/-- Processing a block of successfully read rows appends exactly the
selected identifiers, in row order, to the accumulator, and then continues
with the rest of the stream. -/
lemma get_missing_go_ok_append (fl zl : Finset String) (ext : String) :
    ∀ (rows : List Row) (tail : List (Except String Row)) (acc : List String),
    get_missing_go fl zl ext (rows.map Except.ok ++ tail) acc =
      get_missing_go fl zl ext tail (acc ++ rows.filterMap (missing_row_id fl zl ext)) := by
  intro rows
  induction rows with
  | nil => intro tail acc; simp
  | cons r rest ih =>
    intro tail acc
    simp only [List.map_cons, List.cons_append, List.filterMap_cons]
    cases h : Row.get r "id" with
    | none =>
      simp only [get_missing_go, h, missing_row_id, ih]
    | some v =>
      by_cases hv : v = ""
      · simp only [get_missing_go, h, missing_row_id, hv, if_true, ih]
      · by_cases hvalid : is_file_valid (v ++ "." ++ ext) fl zl = true
        · simp only [get_missing_go, h, missing_row_id, hv, if_false, hvalid,
            if_true, ih]
        · simp only [get_missing_go, h, missing_row_id, hv, if_false,
            Bool.not_eq_true] at hvalid ⊢
          simp [hvalid, ih, List.append_assoc, List.singleton_append]

/-- C2: on a CSV that reads without error, `get_missing_files_from_csv`
returns exactly the identifiers of the rows whose `id` value is present
and non-empty and whose derived name `{id}.{extension}` is not a valid
bucket file, in CSV row order; other rows contribute nothing. -/
theorem get_missing_files_from_csv_ok (rows : List Row)
    (fl zl : Finset String) (ext : String) :
    get_missing_files_from_csv (rows.map Except.ok) fl zl ext =
      rows.filterMap (missing_row_id fl zl ext) := by
  have h := get_missing_go_ok_append fl zl ext rows [] []
  simpa [get_missing_files_from_csv, get_missing_go] using h

/-- C5: if reading or iterating the CSV fails after some rows were
processed, `get_missing_files_from_csv` stops there and returns the list
accumulated before the failure (empty when the failure precedes every
row); rows after the failure point contribute nothing. -/
theorem get_missing_files_from_csv_on_error (rows : List Row) (e : String)
    (rest : List (Except String Row)) (fl zl : Finset String) (ext : String) :
    get_missing_files_from_csv
        (rows.map Except.ok ++ Except.error e :: rest) fl zl ext =
      rows.filterMap (missing_row_id fl zl ext) := by
  have h := get_missing_go_ok_append fl zl ext rows (Except.error e :: rest) []
  simpa [get_missing_files_from_csv, get_missing_go] using h

/-- Concrete check of the reconciliation scenario of the spec: rows with
ids 1, 2, 3, a bucket containing `1.txt` only and `2.txt` zero-byte give
the missing list `["2", "3"]`. -/
lemma scenario_missing_ids :
    get_missing_files_from_csv
        (([[("id", "1")], [("id", "2")], [("id", "3")]] : List Row).map Except.ok)
        {"1.txt"} {"2.txt"} "txt" = ["2", "3"] := by
  decide

/-- Folding the item loop over one page adds exactly the names of the page to
the available set and its zero-byte names to the zero-byte set. -/
lemma foldl_processItem (response : List BucketItem) :
    ∀ (avail zero : Finset String),
    response.foldl processItem (avail, zero) =
      (avail ∪ namesOf response, zero ∪ zeroNamesOf response) := by
  induction response with
  | nil => intro a z; simp [namesOf, zeroNamesOf]
  | cons item rest ih =>
    intro a z
    simp only [List.foldl_cons, processItem]
    by_cases hz : item.isZeroByte
    · simp only [hz, if_true]
      rw [ih]
      simp [namesOf, zeroNamesOf, List.filter_cons, hz,
        Finset.insert_union, Finset.union_insert]
    · simp only [hz, if_false]
      rw [ih]
      simp [namesOf, zeroNamesOf, List.filter_cons, hz,
        Finset.insert_union, Finset.union_insert]

/-- Running the paging loop from offset `offset + limit` is the same as
running it from `offset` against the source shifted by one page stride. -/
lemma fetch_go_shift (listFn : Nat → Except String (List BucketItem)) (limit : Nat) :
    ∀ (fuel offset : Nat) (acc : Finset String × Finset String),
    fetch_go listFn limit fuel (offset + limit) acc =
      fetch_go (fun o => listFn (o + limit)) limit fuel offset acc := by
  intro fuel
  induction fuel with
  | zero => intro offset acc; rfl
  | succ fuel ih =>
    intro offset acc
    simp only [fetch_go]
    cases h : listFn (offset + limit) with
    | error e => rfl
    | ok response =>
      by_cases hemp : response.isEmpty
      · simp [hemp]
      · by_cases hshort : response.length < limit
        · simp [hemp, hshort]
        · simp only [hemp, hshort, if_false, Bool.false_eq_true]
          exact ih (offset + limit) (response.foldl processItem acc)

/-- One iteration of the paging loop on a full page: fold the page into
the accumulators and move to the next offset. -/
lemma fetch_go_step (listFn : Nat → Except String (List BucketItem))
    (limit fuel offset : Nat) (acc : Finset String × Finset String)
    (response : List BucketItem)
    (hl : listFn offset = Except.ok response)
    (hemp : response.isEmpty = false)
    (hshort : ¬response.length < limit) :
    fetch_go listFn limit (fuel + 1) offset acc =
      fetch_go listFn limit fuel (offset + limit) (response.foldl processItem acc) := by
  simp only [fetch_go, hl, hemp, hshort, if_false, Bool.false_eq_true]

/-- Peeling the first page off an iterated union. -/
lemma unionOver_succ_shift (f : Nat → Finset String) :
    ∀ n, unionOver f (n + 1) = f 0 ∪ unionOver (fun k => f (k + 1)) n := by
  intro n
  induction n with
  | zero => simp [unionOver, Finset.union_comm]
  | succ n ih =>
    show unionOver f (n + 1) ∪ f (n + 1) = _
    rw [ih]
    simp [unionOver, Finset.union_assoc]

/-- Main loop invariant: when the first `n` pages are full and page `n`
stops the loop, fuel `n + 1` suffices and the loop adds the union of all
the names (and zero-byte names) of the fetched pages to the accumulators. -/
lemma fetch_go_run (limit : Nat) :
    ∀ (n : Nat) (listFn : Nat → Except String (List BucketItem))
      (pages : Nat → List BucketItem) (avail zero : Finset String),
    (∀ k, listFn (k * limit) = Except.ok (pages k)) →
    (∀ k, k < n → pages k ≠ [] ∧ limit ≤ (pages k).length) →
    (pages n = [] ∨ (pages n).length < limit) →
    fetch_go listFn limit (n + 1) 0 (avail, zero) =
      some (avail ∪ unionOver (fun k => namesOf (pages k)) (n + 1),
            zero ∪ unionOver (fun k => zeroNamesOf (pages k)) (n + 1)) := by
  intro n
  induction n with
  | zero =>
    intro listFn pages avail zero hok _ hstop
    have h0 : listFn 0 = Except.ok (pages 0) := by
      have := hok 0; simpa using this
    cases hstop with
    | inl hnil =>
      simp [fetch_go, h0, hnil, unionOver, namesOf, zeroNamesOf]
    | inr hshort =>
      by_cases hnil : pages 0 = []
      · simp [fetch_go, h0, hnil, unionOver, namesOf, zeroNamesOf]
      · have hemp : (pages 0).isEmpty = false := by
          simpa [List.isEmpty_iff] using hnil
        simp [fetch_go, h0, hemp, hshort, foldl_processItem, unionOver]
  | succ n ih =>
    intro listFn pages avail zero hok hfull hstop
    have h0 : listFn 0 = Except.ok (pages 0) := by
      have := hok 0; simpa using this
    obtain ⟨hnil, hlen⟩ := hfull 0 (Nat.succ_pos n)
    have hemp : (pages 0).isEmpty = false := by
      simpa [List.isEmpty_iff] using hnil
    have hshort : ¬(pages 0).length < limit := Nat.not_lt.mpr hlen
    rw [fetch_go_step listFn limit (n + 1) 0 (avail, zero) (pages 0) h0 hemp hshort,
      foldl_processItem, fetch_go_shift]
    have hok2 : ∀ k, (fun o => listFn (o + limit)) (k * limit) =
        Except.ok ((fun k => pages (k + 1)) k) := by
      intro k
      simp only []
      rw [← Nat.succ_mul]
      exact hok (k + 1)
    have hfull2 : ∀ k, k < n →
        (fun k => pages (k + 1)) k ≠ [] ∧ limit ≤ ((fun k => pages (k + 1)) k).length := by
      intro k hk
      exact hfull (k + 1) (Nat.succ_lt_succ hk)
    have hstop2 : (fun k => pages (k + 1)) n = [] ∨
        ((fun k => pages (k + 1)) n).length < limit := hstop
    rw [ih (fun o => listFn (o + limit)) (fun k => pages (k + 1))
      (avail ∪ namesOf (pages 0)) (zero ∪ zeroNamesOf (pages 0)) hok2 hfull2 hstop2]
    rw [unionOver_succ_shift (fun k => namesOf (pages k)) (n + 1),
      unionOver_succ_shift (fun k => zeroNamesOf (pages k)) (n + 1)]
    simp [Finset.union_assoc]

/-- With only the first `n` full pages available as fuel the loop has not
yet stopped. -/
lemma fetch_go_fuel_out (limit : Nat) :
    ∀ (n : Nat) (listFn : Nat → Except String (List BucketItem))
      (pages : Nat → List BucketItem) (acc : Finset String × Finset String),
    (∀ k, listFn (k * limit) = Except.ok (pages k)) →
    (∀ k, k < n → pages k ≠ [] ∧ limit ≤ (pages k).length) →
    fetch_go listFn limit n 0 acc = none := by
  intro n
  induction n with
  | zero => intro _ _ _ _ _; rfl
  | succ n ih =>
    intro listFn pages acc hok hfull
    have h0 : listFn 0 = Except.ok (pages 0) := by
      have := hok 0; simpa using this
    obtain ⟨hnil, hlen⟩ := hfull 0 (Nat.succ_pos n)
    have hemp : (pages 0).isEmpty = false := by
      simpa [List.isEmpty_iff] using hnil
    have hshort : ¬(pages 0).length < limit := Nat.not_lt.mpr hlen
    rw [fetch_go_step listFn limit n 0 acc (pages 0) h0 hemp hshort, fetch_go_shift]
    have hok2 : ∀ k, (fun o => listFn (o + limit)) (k * limit) =
        Except.ok ((fun k => pages (k + 1)) k) := by
      intro k
      simp only []
      rw [← Nat.succ_mul]
      exact hok (k + 1)
    exact ih (fun o => listFn (o + limit)) (fun k => pages (k + 1)) _ hok2
      (fun k hk => hfull (k + 1) (Nat.succ_lt_succ hk))

/-- C3: for a paged source whose first `n` pages are full (nonempty and
at least `limit` long) and whose page `n` triggers the stop condition
(empty, or shorter than `limit`), the loop is still running after `n`
pages, stops on page `n + 1`, and the returned pair is exactly the union
of names (resp. zero-byte names) over every fetched page, the pages being
requested at offsets `0, limit, 2 * limit, ...`. -/
theorem fetch_file_list_paging (listFn : Nat → Except String (List BucketItem))
    (pages : Nat → List BucketItem) (limit n : Nat)
    (hok : ∀ k, listFn (k * limit) = Except.ok (pages k))
    (hfull : ∀ k, k < n → pages k ≠ [] ∧ limit ≤ (pages k).length)
    (hstop : pages n = [] ∨ (pages n).length < limit) :
    fetch_file_list_from_bucket listFn limit n = none ∧
    fetch_file_list_from_bucket listFn limit (n + 1) =
      some (unionOver (fun k => namesOf (pages k)) (n + 1),
            unionOver (fun k => zeroNamesOf (pages k)) (n + 1)) := by
  constructor
  · exact fetch_go_fuel_out limit n listFn pages (∅, ∅) hok hfull
  · have h := fetch_go_run limit n listFn pages ∅ ∅ hok hfull hstop
    simpa [fetch_file_list_from_bucket] using h

/-- Witness for C3: a single page of two items, shorter than the limit,
fetched whole. -/
theorem fetch_file_list_paging_witness :
    fetch_file_list_from_bucket (fun _ => Except.ok [sampleItemA, sampleItemB]) 10000 0
        = none ∧
    fetch_file_list_from_bucket (fun _ => Except.ok [sampleItemA, sampleItemB]) 10000 1
        = some (unionOver (fun _ => namesOf [sampleItemA, sampleItemB]) 1,
                unionOver (fun _ => zeroNamesOf [sampleItemA, sampleItemB]) 1) :=
  fetch_file_list_paging (fun _ => Except.ok [sampleItemA, sampleItemB])
    (fun _ => [sampleItemA, sampleItemB]) 10000 0
    (fun _ => rfl) (fun k hk => absurd hk (Nat.not_lt_zero k)) (Or.inr (by decide))

/-- After the first `n` full pages, an error on page `n + 1` makes the
loop return the pair of empty sets, discarding the accumulated sets. -/
lemma fetch_go_error (limit : Nat) :
    ∀ (n : Nat) (listFn : Nat → Except String (List BucketItem))
      (pages : Nat → List BucketItem) (e : String)
      (acc : Finset String × Finset String),
    (∀ k, k < n → listFn (k * limit) = Except.ok (pages k) ∧
      pages k ≠ [] ∧ limit ≤ (pages k).length) →
    listFn (n * limit) = Except.error e →
    fetch_go listFn limit (n + 1) 0 acc = some (∅, ∅) := by
  intro n
  induction n with
  | zero =>
    intro listFn pages e acc _ herr
    have h0 : listFn 0 = Except.error e := by simpa using herr
    simp [fetch_go, h0]
  | succ n ih =>
    intro listFn pages e acc hfull herr
    obtain ⟨h0, hnil, hlen⟩ := hfull 0 (Nat.succ_pos n)
    have h0' : listFn 0 = Except.ok (pages 0) := by simpa using h0
    have hemp : (pages 0).isEmpty = false := by
      simpa [List.isEmpty_iff] using hnil
    have hshort : ¬(pages 0).length < limit := Nat.not_lt.mpr hlen
    rw [fetch_go_step listFn limit (n + 1) 0 acc (pages 0) h0' hemp hshort,
      fetch_go_shift]
    refine ih (fun o => listFn (o + limit)) (fun k => pages (k + 1)) e _ ?_ ?_
    · intro k hk
      have h := hfull (k + 1) (Nat.succ_lt_succ hk)
      simpa [Nat.succ_mul] using h
    · simpa [Nat.succ_mul] using herr

/-- C4: when the listing raises (here: returns `Except.error`) at any
reached page, `fetch_file_list_from_bucket` does not propagate the error:
it returns the pair of empty sets, discarding everything accumulated from
the earlier pages. -/
theorem fetch_file_list_error_empty (listFn : Nat → Except String (List BucketItem))
    (pages : Nat → List BucketItem) (limit n : Nat) (e : String)
    (hfull : ∀ k, k < n → listFn (k * limit) = Except.ok (pages k) ∧
      pages k ≠ [] ∧ limit ≤ (pages k).length)
    (herr : listFn (n * limit) = Except.error e) :
    fetch_file_list_from_bucket listFn limit (n + 1) = some (∅, ∅) :=
  fetch_go_error limit n listFn pages e (∅, ∅) hfull herr

/-- Witness for C4: one full page is accumulated, then the second page
raises; the result is nevertheless the pair of empty sets. -/
theorem fetch_file_list_error_empty_witness :
    fetch_file_list_from_bucket
        (fun o => if o = 0 then Except.ok [sampleItemA] else Except.error "boom")
        1 2 = some (∅, ∅) :=
  fetch_file_list_error_empty
    (fun o => if o = 0 then Except.ok [sampleItemA] else Except.error "boom")
    (fun _ => [sampleItemA]) 1 1 "boom"
    (fun k hk => by
      have hk0 : k = 0 := Nat.lt_one_iff.mp hk
      subst hk0
      exact ⟨rfl, by decide, by decide⟩)
    rfl

/-- The zero-byte names of one page are among its names. -/
lemma zeroNamesOf_subset (response : List BucketItem) :
    zeroNamesOf response ⊆ namesOf response := by
  intro x hx
  simp only [zeroNamesOf, List.mem_toFinset, List.mem_map, List.mem_filter] at hx
  obtain ⟨item, ⟨hmem, _⟩, hname⟩ := hx
  simp only [namesOf, List.mem_toFinset, List.mem_map]
  exact ⟨item, hmem, hname⟩

/-- The loop preserves the subset relation between the zero-byte and the
available accumulators. -/
lemma fetch_go_subset (listFn : Nat → Except String (List BucketItem)) (limit : Nat) :
    ∀ (fuel offset : Nat) (avail zero : Finset String)
      (result : Finset String × Finset String),
    fetch_go listFn limit fuel offset (avail, zero) = some result →
    zero ⊆ avail → result.2 ⊆ result.1 := by
  intro fuel
  induction fuel with
  | zero => intro offset avail zero result h _; cases h
  | succ fuel ih =>
    intro offset avail zero result h hsub
    rw [fetch_go] at h
    cases hl : listFn offset with
    | error e =>
      simp only [hl] at h
      cases h
      exact Finset.Subset.refl _
    | ok response =>
      simp only [hl] at h
      by_cases hemp : response.isEmpty
      · simp only [hemp, if_true] at h
        cases h
        exact hsub
      · simp only [hemp, if_false, Bool.false_eq_true, foldl_processItem] at h
        have hsub2 : zero ∪ zeroNamesOf response ⊆ avail ∪ namesOf response :=
          Finset.union_subset_union hsub (zeroNamesOf_subset response)
        by_cases hshort : response.length < limit
        · simp only [hshort, if_true] at h
          cases h
          exact hsub2
        · simp only [hshort, if_false] at h
          exact ih (offset + limit) _ _ result h hsub2

/-- C9: whenever `fetch_file_list_from_bucket` returns a pair, the
zero-byte set is a subset of the available-files set: every name recorded
as zero-byte was also recorded as present. -/
theorem fetch_zero_byte_subset (listFn : Nat → Except String (List BucketItem))
    (limit fuel : Nat) (avail zero : Finset String)
    (h : fetch_file_list_from_bucket listFn limit fuel = some (avail, zero)) :
    zero ⊆ avail :=
  fetch_go_subset listFn limit fuel 0 ∅ ∅ (avail, zero) h (Finset.Subset.refl _)

/-- Witness for C9: a page with one valid and one zero-byte item yields a
zero-byte set contained in the available set. -/
theorem fetch_zero_byte_subset_witness :
    ({"b.txt"} : Finset String) ⊆ insert "b.txt" {"a.txt"} :=
  fetch_zero_byte_subset (fun _ => Except.ok [sampleItemA, sampleItemB]) 10000 1
    (insert "b.txt" {"a.txt"}) {"b.txt"} (by decide)

/-- The upload loop distributes over concatenation of the identifier
list: each identifier is processed on its own. -/
lemma upload_missing_files_append (env : UploadEnv)
    (d b bd ext : String) (xs ys : List String) :
    upload_missing_files env d b bd ext (xs ++ ys) =
      upload_missing_files env d b bd ext xs ++
        upload_missing_files env d b bd ext ys := by
  induction xs with
  | nil => simp [upload_missing_files]
  | cons x xs ih => simp [upload_missing_files, ih]

/-- C6: identifiers are processed independently — the events of a
concatenated list are the concatenation of the events of its parts; an
identifier whose file is absent locally produces exactly one skip log and
no upload call; an identifier whose upload raises produces a logged
error, and in both cases the loop (being a total function) continues with
the remaining identifiers and never propagates an exception. -/
theorem upload_missing_files_independent (env : UploadEnv)
    (d b bd ext fid fid2 data err : String) (xs ys : List String)
    (hmiss : env.path_exists (path_join d (fid ++ "." ++ ext)) = false)
    (hex2 : env.path_exists (path_join d (fid2 ++ "." ++ ext)) = true)
    (hread2 : env.read_file (path_join d (fid2 ++ "." ++ ext)) = Except.ok data)
    (hup2 : env.upload b (bd ++ "/" ++ (fid2 ++ "." ++ ext)) data =
      Except.error err) :
    upload_missing_files env d b bd ext (xs ++ ys) =
      upload_missing_files env d b bd ext xs ++
        upload_missing_files env d b bd ext ys ∧
    upload_one_file env d b bd ext fid =
      [UploadEvent.localMissing (fid ++ "." ++ ext) d] ∧
    upload_one_file env d b bd ext fid2 =
      [UploadEvent.uploadCall b (bd ++ "/" ++ (fid2 ++ "." ++ ext)) data,
       UploadEvent.uploadError (fid2 ++ "." ++ ext) err] := by
  refine ⟨upload_missing_files_append env d b bd ext xs ys, ?_, ?_⟩
  · simp [upload_one_file, hmiss]
  · simp [upload_one_file, hex2, hread2, hup2]

/-- Witness for C6: `6.txt` is absent from the local directory (one skip
log, no upload call) while `5.txt` exists but its upload raises. -/
theorem upload_missing_files_independent_witness :
    upload_missing_files envOnlyFive "dir" "fictionpress" "contents" "txt"
        (["6"] ++ ["5"]) =
      upload_missing_files envOnlyFive "dir" "fictionpress" "contents" "txt" ["6"] ++
        upload_missing_files envOnlyFive "dir" "fictionpress" "contents" "txt" ["5"] ∧
    upload_one_file envOnlyFive "dir" "fictionpress" "contents" "txt" "6" =
      [UploadEvent.localMissing ("6" ++ "." ++ "txt") "dir"] ∧
    upload_one_file envOnlyFive "dir" "fictionpress" "contents" "txt" "5" =
      [UploadEvent.uploadCall "fictionpress" ("contents" ++ "/" ++ ("5" ++ "." ++ "txt"))
        "data",
       UploadEvent.uploadError ("5" ++ "." ++ "txt") "boom"] :=
  upload_missing_files_independent envOnlyFive "dir" "fictionpress" "contents" "txt"
    "6" "5" "data" "boom" ["6"] ["5"] (by decide) (by decide) rfl rfl

/-- C7: on an upload response whose status is not a 2xx success, the
loop body logs the message extracted from the decoded JSON error body,
falling back to the raw response text when the body does not decode as
JSON. -/
theorem upload_failure_logs_json_or_raw (env : UploadEnv)
    (d b bd ext fid data : String) (response : UploadResponse)
    (hex : env.path_exists (path_join d (fid ++ "." ++ ext)) = true)
    (hread : env.read_file (path_join d (fid ++ "." ++ ext)) = Except.ok data)
    (hup : env.upload b (bd ++ "/" ++ (fid ++ "." ++ ext)) data =
      Except.ok response)
    (hfail : ¬(200 ≤ response.status_code ∧ response.status_code < 300)) :
    upload_one_file env d b bd ext fid =
      UploadEvent.uploadCall b (bd ++ "/" ++ (fid ++ "." ++ ext)) data ::
        (match response.jsonBody with
         | some error_content =>
           [UploadEvent.uploadFailed (fid ++ "." ++ ext)
             ((List.lookup "error" error_content).getD "Unknown error")]
         | none =>
           [UploadEvent.uploadFailedRaw (fid ++ "." ++ ext) response.text]) := by
  have h200 : response.status_code ≠ 200 := by
    intro h
    exact hfail ⟨by omega, by omega⟩
  simp [upload_one_file, hex, hread, hup, h200]

/-- Witness for C7: a 404 response whose body does not decode as JSON is
logged with the raw text. -/
theorem upload_failure_logs_json_or_raw_witness :
    upload_one_file (envUpload resp404) "dir" "fictionpress" "contents" "txt" "5" =
      [UploadEvent.uploadCall "fictionpress"
        ("contents" ++ "/" ++ ("5" ++ "." ++ "txt")) "data",
       UploadEvent.uploadFailedRaw ("5" ++ "." ++ "txt") "oops"] :=
  upload_failure_logs_json_or_raw (envUpload resp404) "dir" "fictionpress"
    "contents" "txt" "5" "data" resp404 rfl rfl rfl (by decide)

/-- C10: the loop body takes the success branch iff the response
status code equals exactly 200; any other status code — other 2xx codes
such as 201 included — is handled by the failure branch that attempts to
decode an error body. -/
theorem upload_success_iff_status_200 (env : UploadEnv)
    (d b bd ext fid data : String) (response : UploadResponse)
    (hex : env.path_exists (path_join d (fid ++ "." ++ ext)) = true)
    (hread : env.read_file (path_join d (fid ++ "." ++ ext)) = Except.ok data)
    (hup : env.upload b (bd ++ "/" ++ (fid ++ "." ++ ext)) data =
      Except.ok response) :
    (upload_one_file env d b bd ext fid =
      [UploadEvent.uploadCall b (bd ++ "/" ++ (fid ++ "." ++ ext)) data,
       UploadEvent.uploaded (fid ++ "." ++ ext)] ↔
      response.status_code = 200) ∧
    (response.status_code ≠ 200 →
      upload_one_file env d b bd ext fid =
        UploadEvent.uploadCall b (bd ++ "/" ++ (fid ++ "." ++ ext)) data ::
          (match response.jsonBody with
           | some error_content =>
             [UploadEvent.uploadFailed (fid ++ "." ++ ext)
               ((List.lookup "error" error_content).getD "Unknown error")]
           | none =>
             [UploadEvent.uploadFailedRaw (fid ++ "." ++ ext) response.text])) := by
  constructor
  · constructor
    · intro h
      by_contra h200
      simp [upload_one_file, hex, hread, hup, h200] at h
      rcases hj : response.jsonBody with _ | error_content <;> simp [hj] at h
    · intro h200
      simp [upload_one_file, hex, hread, hup, h200]
  · intro h200
    simp [upload_one_file, hex, hread, hup, h200]

/-- Witness for C10: a 201 response does not take the success branch and
its JSON error body is logged. -/
theorem upload_success_iff_status_200_witness :
    (upload_one_file (envUpload resp201) "dir" "fictionpress" "contents" "txt" "5" =
      [UploadEvent.uploadCall "fictionpress"
        ("contents" ++ "/" ++ ("5" ++ "." ++ "txt")) "data",
       UploadEvent.uploaded ("5" ++ "." ++ "txt")] ↔
      resp201.status_code = 200) ∧
    (resp201.status_code ≠ 200 →
      upload_one_file (envUpload resp201) "dir" "fictionpress" "contents" "txt" "5" =
        [UploadEvent.uploadCall "fictionpress"
          ("contents" ++ "/" ++ ("5" ++ "." ++ "txt")) "data",
         UploadEvent.uploadFailed ("5" ++ "." ++ "txt") "Duplicate"]) :=
  upload_success_iff_status_200 (envUpload resp201) "dir" "fictionpress"
    "contents" "txt" "5" "data" resp201 rfl rfl rfl

/-- Every run of `delete_folder` issues exactly one listing call, with
the fixed limit 10000. -/
lemma delete_folder_one_listCall (env : DeleteEnv) (b f : String) :
    (delete_folder env b f).filter isListCall =
      [DeleteEvent.listCall b f 10000] := by
  unfold delete_folder
  cases hl : env.list b f 10000 with
  | error e => simp [isListCall]
  | ok r =>
    cases r with
    | other => simp [isListCall]
    | list items =>
      by_cases hnil : items.isEmpty
      · simp [hnil, isListCall]
      · simp only [hnil, if_false, Bool.false_eq_true]
        cases hb : build_file_paths f items with
        | error e => simp [hb, isListCall]
        | ok paths =>
          cases hr : env.remove b paths with
          | error e => simp [hb, hr, isListCall]
          | ok dr =>
            cases hc : dr.httpStatusCode with
            | none => simp [hb, hr, hc, isListCall]
            | some code =>
              by_cases h200 : code == 200
              · simp [hb, hr, hc, h200, isListCall]
              · simp [hb, hr, hc, h200, isListCall]

/-- C8: an empty or non-list listing response makes `delete_folder`
report the folder as empty/nonexistent and return with no remove call and
no error; a remove call can only be issued after the listing returned a
nonempty list; and every run requests the listing exactly once, with the
fixed limit 10000. -/
theorem delete_folder_empty_listing (env env2 env3 : DeleteEnv)
    (b f b2 f2 b3 f3 : String) (r : ListResponse) (ps : List String)
    (hok : env.list b f 10000 = Except.ok r)
    (hemp : r = ListResponse.other ∨ r = ListResponse.list [])
    (hrem : DeleteEvent.removeCall ps ∈ delete_folder env2 b2 f2) :
    delete_folder env b f =
      [DeleteEvent.listCall b f 10000, DeleteEvent.printedResponse r,
       DeleteEvent.folderEmpty f] ∧
    (∃ items, items ≠ [] ∧
      env2.list b2 f2 10000 = Except.ok (ListResponse.list items)) ∧
    (delete_folder env3 b3 f3).filter isListCall =
      [DeleteEvent.listCall b3 f3 10000] := by
  refine ⟨?_, ?_, delete_folder_one_listCall env3 b3 f3⟩
  · rcases hemp with hr | hr <;> subst hr <;> simp [delete_folder, hok]
  · unfold delete_folder at hrem
    cases hl : env2.list b2 f2 10000 with
    | error e => simp [hl] at hrem
    | ok r2 =>
      cases r2 with
      | other => simp [hl] at hrem
      | list items =>
        by_cases hnil : items.isEmpty
        · simp [hl, hnil] at hrem
        · exact ⟨items, by simpa [List.isEmpty_iff] using hnil, rfl⟩

/-- Witness for C8: an empty-list listing produces no remove call and
reports the folder empty, while a one-entry listing does issue a remove
call. -/
theorem delete_folder_empty_listing_witness :
    delete_folder envEmptyList "bucket" "folder" =
      [DeleteEvent.listCall "bucket" "folder" 10000,
       DeleteEvent.printedResponse (ListResponse.list []),
       DeleteEvent.folderEmpty "folder"] ∧
    (∃ items, items ≠ [] ∧
      envOneFile.list "bucket" "folder" 10000 =
        Except.ok (ListResponse.list items)) ∧
    (delete_folder envEmptyList "bucket2" "folder2").filter isListCall =
      [DeleteEvent.listCall "bucket2" "folder2" 10000] :=
  delete_folder_empty_listing envEmptyList envOneFile envEmptyList
    "bucket" "folder" "bucket" "folder" "bucket2" "folder2"
    (ListResponse.list []) ["folder/c.txt"] rfl (Or.inr rfl) (by decide)

end FileUpload
